import Mathlib

/-!
Verification development for the YC-scraper pipeline (challenge-2/utils.ts).

The HTML document is embedded at the granularity of the CSS selections the
code performs: each structure field below stands for the node set or text
that the corresponding cheerio selector would return, and every extractor
is translated from the source line by line on top of those selections.
JavaScript runtime values that the TypeScript types cannot rule out
(undefined, NaN) are modelled explicitly with the JsValue type, and
synchronous throws with Except. The JavaScript string primitives the
code relies on (trim, split, replace, parseInt, toLowerCase, Set) are
modelled by structurally recursive functions on character lists so that
every concrete run evaluates by definitional reduction.
-/

/-- A JavaScript value as it can actually appear in the assembled records:
a string, an integral number, the NaN number, null, or undefined. -/
inductive JsValue where
  | vStr (s : String)
  | vNum (n : Int)
  | vNaN
  | vNull
  | vUndef
  deriving Repr, DecidableEq

open JsValue

/-- The whitespace characters the scraped pages can contain (JavaScript
trim also strips rarer ones that never occur here). -/
def isJsWhitespace (c : Char) : Bool :=
  c = ' ' ∨ c = '\t' ∨ c = '\n' ∨ c = '\r'

/-- JavaScript `s.trim()`: strip leading and trailing whitespace. -/
def jsTrim (s : String) : String :=
  String.mk (((s.toList.dropWhile isJsWhitespace).reverse.dropWhile
    isJsWhitespace).reverse)

/-- Is the first list a prefix of the second? -/
def isPrefixL : List Char → List Char → Bool
  | [], _ => true
  | _ :: _, [] => false
  | a :: as, b :: bs => a = b && isPrefixL as bs

/-- The splitting loop of JavaScript `s.split(sep)` for a nonempty
separator, fuelled by the input length so that the recursion is
structural: at each position either the separator matches and the
accumulated piece is emitted, or one character is consumed. -/
def splitOnFuel (sep : List Char) : Nat → List Char → List Char →
    List (List Char)
  | _, [], acc => [acc.reverse]
  | 0, rest, acc => [acc.reverse ++ rest]
  | fuel + 1, c :: cs, acc =>
      if isPrefixL sep (c :: cs) then
        acc.reverse :: splitOnFuel sep fuel (List.drop sep.length (c :: cs)) []
      else
        splitOnFuel sep fuel cs (c :: acc)

/-- JavaScript `s.split(sep)` for the nonempty separators the code
uses. -/
def jsSplitOn (s sep : String) : List String :=
  (splitOnFuel sep.toList (s.toList.length + 1) s.toList []).map String.mk

/-- JavaScript `s.toLowerCase()` (ASCII, which is all the titles use). -/
def jsToLower (s : String) : String :=
  String.mk (s.toList.map Char.toLower)

/-- JavaScript falsy coercion of a string used by the pervasive
`text().trim() || null` idiom: the empty string becomes null (none). -/
def strOrNull (s : String) : Option String :=
  if s = "" then none else some s

/-- JavaScript `attr(...) || null` idiom: an absent attribute (undefined)
and the empty string both coerce to null. -/
def attrOrNull (o : Option String) : Option String :=
  match o with
  | some s => if s = "" then none else some s
  | none => none

/-- The longest leading run of decimal digits of a character list. -/
def leadingDigits : List Char → List Char
  | [] => []
  | c :: cs => if c.isDigit then c :: leadingDigits cs else []

/-- Numeric value of a list of decimal digit characters. -/
def digitsVal (l : List Char) : Nat :=
  l.foldl (fun a c => 10 * a + (c.toNat - 48)) 0

/-- JavaScript `parseInt(s, 10)` on a list of characters: leading
whitespace is skipped, then an optional sign must be followed by at
least one digit; everything after the digit run is ignored; `none`
models the NaN result. -/
def jsParseIntCore : List Char → Option Int
  | [] => none
  | c :: cs =>
      if isJsWhitespace c then jsParseIntCore cs
      else if c = '-' then
        match leadingDigits cs with
        | [] => none
        | ds => some (-(digitsVal ds : Int))
      else if c = '+' then
        match leadingDigits cs with
        | [] => none
        | ds => some (digitsVal ds : Int)
      else
        match leadingDigits (c :: cs) with
        | [] => none
        | ds => some (digitsVal ds : Int)

/-- JavaScript `parseInt(s, 10)`. -/
def jsParseInt (s : String) : Option Int :=
  jsParseIntCore s.toList

/-- JavaScript `s.replace(/\D/g, "")`: drop every non-digit character. -/
def stripNonDigits (s : String) : String :=
  String.mk (s.toList.filter Char.isDigit)

/-- JavaScript `s.split(" ")[0]`: the part before the first space
(`split` with a separator always yields a nonempty array). -/
def jsFirstWord (s : String) : String :=
  (jsSplitOn s " ").headD ""

/-- JavaScript `s.includes(m)` for a nonempty marker, expressed through
the same split that models `s.split(m)`. -/
def jsIncludes (s m : String) : Bool :=
  (jsSplitOn s m).length != 1

/-- JavaScript `arr.join(sep)`. -/
def jsJoinSep (sep : String) : List String → String
  | [] => ""
  | [x] => x
  | x :: xs => x ++ sep ++ jsJoinSep sep xs

/-- The loop of JavaScript `[...new Set(l)]` with the already seen
elements accumulated: first occurrences survive, in insertion order. -/
def jsSetDedupAux {α : Type} [DecidableEq α] (seen : List α) :
    List α → List α
  | [] => []
  | a :: l =>
      if a ∈ seen then jsSetDedupAux seen l
      else a :: jsSetDedupAux (a :: seen) l

/-- JavaScript `[...new Set(l)]`: first occurrences, in insertion order. -/
def jsSetDedup {α : Type} [DecidableEq α] (l : List α) : List α :=
  jsSetDedupAux [] l

/-- JavaScript property assignment `m[k] = v` on a plain object kept as
an association list: an existing key is overwritten in place, a new key
is appended (JS objects preserve string-key insertion order). -/
def jsObjSet (m : List (String × JsValue)) (k : String) (v : JsValue) :
    List (String × JsValue) :=
  if (m.map Prod.fst).contains k then
    m.map (fun p => if p.1 = k then (k, v) else p)
  else
    m ++ [(k, v)]

/-- JavaScript `new Date(s).toISOString()` modelled on the ISO
`YYYY-MM-DD` subset of the implementation-defined Date parser: a
ten-character digits-and-dashes date parses to UTC midnight, every other
string yields an invalid date (none), on which `toISOString` throws. -/
def jsDateParse (s : String) : Option String :=
  match s.toList with
  | [y1, y2, y3, y4, h1, m1, m2, h2, d1, d2] =>
      if y1.isDigit ∧ y2.isDigit ∧ y3.isDigit ∧ y4.isDigit ∧
         h1 = '-' ∧ m1.isDigit ∧ m2.isDigit ∧ h2 = '-' ∧
         d1.isDigit ∧ d2.isDigit then
        some (s ++ "T00:00:00.000Z")
      else none
  | _ => none

/-- `new URL(rel, base).href` for the cases the scraper exercises: an
absolute http(s) reference is kept as is, a root-relative reference is
appended to the base origin, any other reference is resolved one level
below the origin (the bases used in this code are origins as produced by
getBaseUrl, with no path and no trailing slash). -/
def newURLHref (rel base : String) : String :=
  if isPrefixL "http://".toList rel.toList ∨
     isPrefixL "https://".toList rel.toList then rel
  else if isPrefixL "/".toList rel.toList then base ++ rel
  else base ++ "/" ++ rel

/-- Cheerio `.map(cb).get()` where the callback may throw (Except.error)
and may return null (none): a thrown exception propagates out of the
whole traversal, a null return is dropped from the resulting array. -/
def cheerioMapDrop {α β : Type} (f : α → Except String (Option β)) :
    List α → Except String (List β)
  | [] => .ok []
  | a :: l =>
      match f a with
      | .error e => .error e
      | .ok none => cheerioMapDrop f l
      | .ok (some b) =>
          match cheerioMapDrop f l with
          | .error e => .error e
          | .ok bs => .ok (b :: bs)

/-! ## Document model

One structure field per cheerio selection performed by the extractors. -/

/-- A social-media anchor matched by
`a.inline-block.w-5.h-5.bg-contain` (or `a.h-5.w-5.bg-contain` on a
founder card): its href and title attributes, either possibly absent. -/
structure SocialLinkEl where
  href : Option String
  title : Option String
  deriving Repr, DecidableEq

/-- A news container matched by `#news div.ycdc-with-link-color`: the
text of its `a.prose.font-medium` title anchor, that anchor's href
attribute, and the text of the container's next sibling (the date). -/
structure NewsEl where
  titleText : String
  linkAttr : Option String
  nextText : String
  deriving Repr, DecidableEq

/-- A job row matched by `.flex.w-full.flex-row.justify-between.py-4`:
the texts of its role anchor and of the first four list items. -/
structure JobEl where
  roleText : String
  locationText : String
  salaryText : String
  equityText : String
  eligibilityText : String
  deriving Repr, DecidableEq

/-- A founder block (either structural variant): the card texts and
attributes the two extraction paths read. -/
structure FounderEl where
  nameText : String
  imgSrc : Option String
  positionText : String
  socials : List SocialLinkEl
  descriptionText : String
  deriving Repr, DecidableEq

/-- A launch teaser matched by `.company-launch`: its h3 text, the href
of its Read Launch anchor, and its description text. -/
structure LaunchContainerEl where
  titleText : String
  readLaunchHref : Option String
  descriptionText : String
  deriving Repr, DecidableEq

/-- A direct child of the launch-page body container: its text content
and the src attributes of its first img and first iframe descendants. -/
structure BodyChild where
  text : String
  imgSrc : Option String
  iframeSrc : Option String
  deriving Repr, DecidableEq

/-- A fetched launch sub-page, as selected by scrapeLaunchPage: the body
children of `div.launch-container > div:not([class])`, the text of
`.vote-count-container div:last-child`, and the datetime attribute of
`.timeago`. -/
structure LaunchDoc where
  bodyChildren : List BodyChild
  votesText : String
  timeagoDatetime : Option String
  deriving Repr, DecidableEq

/-- A parsed company profile page, one field per selector used by the
field extractors of utils.ts. -/
structure Doc where
  /-- text of `.prose.max-w-full h1` -/
  nameText : String
  /-- text of the span after the Founded label span -/
  foundedText : String
  /-- text of the span after the Team Size label span -/
  teamSizeText : String
  /-- text of the span after the Location label span -/
  locationText : String
  /-- text of `.ycdc-badge.ml-0.font-bold.no-underline` -/
  numJobsText : String
  /-- text of `p.whitespace-pre-line` -/
  descriptionText : String
  /-- text of `.prose.hidden.max-w-full.md:block .text-xl` -/
  shortDescriptionText : String
  /-- hrefs of the matched company-url anchors, in document order -/
  urlElems : List (Option String)
  /-- the social anchors inside the YC card -/
  socialEls : List SocialLinkEl
  /-- src attributes of every `img` on the page -/
  imageSrcs : List (Option String)
  /-- src of the logo img, when present -/
  logoSrc : Option String
  /-- src of the banner img, when present -/
  bannerSrc : Option String
  /-- texts of the badge elements -/
  badgeTexts : List String
  /-- texts of the `.ycdc-badge` elements containing the YC marker -/
  batchTexts : List String
  /-- the news containers -/
  newsEls : List NewsEl
  /-- the job rows -/
  jobEls : List JobEl
  /-- the founder blocks of the description variant -/
  founderInfoEls : List FounderEl
  /-- the founder cards of the card-only variant -/
  founderCardEls : List FounderEl
  /-- the launch teasers -/
  launchEls : List LaunchContainerEl
  deriving Repr, DecidableEq

/-! ## Record types (from challenge-2/types.ts usage) -/

/-- One row of the input CSV after the unchecked `as string` casts: a
missing column really leaves the field undefined, hence Option. -/
structure Company where
  companyName : Option String
  ycUrl : Option String
  deriving Repr, DecidableEq

/-- A news record: by the time it is built all three fields are known
to be present. -/
structure News where
  title : String
  link : String
  date : String
  deriving Repr, DecidableEq

/-- A job record: role is stored as returned by trim, the rest through
`|| null`. -/
structure Job where
  role : String
  location : Option String
  salary : Option String
  equity : Option String
  eligibility : Option String
  deriving Repr, DecidableEq

/-- A founder record. The source spreads the socials object flat into
the record literal; the model keeps them in a dedicated field, which is
observationally equal as long as no platform key collides with a record
key. imageUrl comes straight from `attr("src")` and so can be
undefined. -/
structure Founder where
  name : String
  imageUrl : JsValue
  position : String
  description : Option String
  socials : List (String × JsValue)
  deriving Repr, DecidableEq

/-- A launch post: the teaser fields plus the scraped sub-page fields.
createdAt comes straight from `attr("datetime")` and so can be
undefined. -/
structure LaunchPost where
  title : String
  link : String
  description : String
  votes : Int
  createdAt : JsValue
  post : String
  sources : List String
  deriving Repr, DecidableEq

/-- The assembled per-company record pushed by the request handler. -/
structure Startup where
  name : Option String
  ycUrl : String
  shortDescription : Option String
  description : Option String
  logo : Option String
  banner : Option String
  founded : Option String
  teamSize : Option Int
  location : Option String
  url : Option String
  ycBatch : Option String
  badges : List String
  numJobs : JsValue
  jobs : List Job
  founders : List Founder
  launchPosts : List (Option LaunchPost)
  socialMedia : List (String × JsValue)
  news : List News
  images : List String
  deriving Repr, DecidableEq

/-! ## Field extractors (utils.ts lines 78 to 254) -/

/-- `getName`: text of the prose h1, trimmed, `|| null`. -/
def getName (d : Doc) : Option String :=
  strOrNull (jsTrim d.nameText)

/-- `getFounded`: text of the span after the Founded label, `|| null`. -/
def getFounded (d : Doc) : Option String :=
  strOrNull (jsTrim d.foundedText)

/-- `getTeamSize`: parseInt of the trimmed team-size text, null on NaN.
No non-digit stripping happens here. -/
def getTeamSize (d : Doc) : Option Int :=
  jsParseInt (jsTrim d.teamSizeText)

/-- `getCompanyUrl`: when the selection is nonempty, the first matched
href through `url ? url : null`, else null. -/
def getCompanyUrl (d : Doc) : Option String :=
  match d.urlElems with
  | [] => none
  | a :: _ => attrOrNull a

/-- The platform key for a social anchor: first word of the title,
lower-cased; an absent title makes the whole optional chain undefined,
which JavaScript stringifies to the object key "undefined". -/
def socialKey (el : SocialLinkEl) : String :=
  match el.title with
  | some t => jsToLower (jsFirstWord t)
  | none => "undefined"

/-- The value stored for a social anchor: the href attribute as is
(undefined when absent). -/
def socialVal (el : SocialLinkEl) : JsValue :=
  match el.href with
  | some h => vStr h
  | none => vUndef

/-- One iteration of the social-link `.each` loop:
`socials[platform] = link`. -/
def socialStep (m : List (String × JsValue)) (el : SocialLinkEl) :
    List (String × JsValue) :=
  jsObjSet m (socialKey el) (socialVal el)

/-- `getCompanySocials`: each matched anchor assigns
`socials[platform] = link` in order. -/
def getCompanySocials (d : Doc) : List (String × JsValue) :=
  d.socialEls.foldl socialStep []

/-- `getLocation`: text of the span after the Location label, `|| null`. -/
def getLocation (d : Doc) : Option String :=
  strOrNull (jsTrim d.locationText)

/-- `getNumJobs`: trim, strip every non-digit, parseInt; the NaN result
of an empty cleaned string is returned unchecked. -/
def getNumJobs (d : Doc) : JsValue :=
  match jsParseInt (stripNonDigits (jsTrim d.numJobsText)) with
  | some n => vNum n
  | none => vNaN

/-- `getDescription`: text of the whitespace-pre-line paragraph,
`|| null`. -/
def getDescription (d : Doc) : Option String :=
  strOrNull (jsTrim d.descriptionText)

/-- `getImages`: src of every img, `|| ""`. -/
def getImages (d : Doc) : List String :=
  d.imageSrcs.map (fun o => o.getD "")

/-- `getCompanyLogo`: logo img src, `|| null`. -/
def getCompanyLogo (d : Doc) : Option String :=
  attrOrNull d.logoSrc

/-- `getBannerUrl`: banner img src, `|| null`. -/
def getBannerUrl (d : Doc) : Option String :=
  attrOrNull d.bannerSrc

/-- The marker substring special-cased by badge and batch extraction. -/
def ycMarker : String := "Y Combinator Logo"

/-- `getBadges`: each badge text is trimmed; when it contains the
marker, the part after the marker is kept and trimmed again. -/
def getBadges (d : Doc) : List String :=
  d.badgeTexts.map (fun t =>
    let tt := jsTrim t
    if jsIncludes tt ycMarker then
      jsTrim (((jsSplitOn tt ycMarker).drop 1).headD "")
    else tt)

/-- `getShortDescription`: `|| null`. -/
def getShortDescription (d : Doc) : Option String :=
  strOrNull (jsTrim d.shortDescriptionText)

/-- `getBatch`: when the marker selection is nonempty, the concatenated
text is trimmed, split on the marker and indexed at 1; indexing past
the end of a JavaScript array yields undefined, on which the final
`.trim()` would throw, so the result is Except-valued (the `:contains`
selector in fact guarantees the marker is present). -/
def getBatch (d : Doc) : Except String (Option String) :=
  if d.batchTexts.length > 0 then
    match (jsSplitOn (jsTrim (jsJoinSep "" d.batchTexts)) ycMarker).drop 1 with
    | [] => .error "TypeError: undefined has no method trim"
    | s :: _ => .ok (some (jsTrim s))
  else .ok none

/-! ## News extraction (utils.ts lines 369 to 391) -/

/-- The body of the `getNews` map callback for one news container:
derive title, link and date string; a nonempty date string is fed to
`new Date(...).toISOString()`, which throws on an unparseable date;
an item with any of the three fields missing maps to null. -/
def newsFromEl (el : NewsEl) : Except String (Option News) :=
  let title := strOrNull (jsTrim el.titleText)
  let link := attrOrNull el.linkAttr
  let dateString := strOrNull (jsTrim el.nextText)
  match dateString with
  | some ds =>
      match jsDateParse ds with
      | none => .error "RangeError: Invalid time value"
      | some iso =>
          match title, link with
          | some t, some l => .ok (some { title := t, link := l, date := iso })
          | _, _ => .ok none
  | none => .ok none

/-- `getNews`: map the callback over the news containers, dropping null
returns, letting a throw escape. -/
def getNews (d : Doc) : Except String (List News) :=
  cheerioMapDrop newsFromEl d.newsEls

/-! ## Jobs and founders (utils.ts lines 399 to 515) -/

/-- The `getJobs` map callback for one job row. -/
def jobFromEl (el : JobEl) : Job :=
  { role := jsTrim el.roleText
    location := strOrNull (jsTrim el.locationText)
    salary := strOrNull (jsTrim el.salaryText)
    equity := strOrNull (jsTrim el.equityText)
    eligibility := strOrNull (jsTrim el.eligibilityText) }

/-- `getJobs`. -/
def getJobs (d : Doc) : List Job :=
  d.jobEls.map jobFromEl

/-- The socials object accumulated on a founder card, same assignment
loop as getCompanySocials. -/
def founderSocials (els : List SocialLinkEl) : List (String × JsValue) :=
  els.foldl socialStep []

/-- The img src as the record stores it: the raw attribute, undefined
when absent. -/
def jsAttr (o : Option String) : JsValue :=
  match o with
  | some s => vStr s
  | none => vUndef

/-- The `getFounders` callback for the description variant: name, image
and position from the nested card, description from the container. -/
def founderFromInfoEl (el : FounderEl) : Founder :=
  { name := jsTrim el.nameText
    imageUrl := jsAttr el.imgSrc
    position := jsTrim el.positionText
    description := strOrNull (jsTrim el.descriptionText)
    socials := founderSocials el.socials }

/-- The `getFounders` callback for the card-only variant: description
is the literal null. -/
def founderFromCardEl (el : FounderEl) : Founder :=
  { name := jsTrim el.nameText
    imageUrl := jsAttr el.imgSrc
    position := jsTrim el.positionText
    description := none
    socials := founderSocials el.socials }

/-- `getFounders`: the description variant is used when its selection
is nonempty, otherwise the card-only variant. -/
def getFounders (d : Doc) : List Founder :=
  if d.founderInfoEls.length > 0 then
    d.founderInfoEls.map founderFromInfoEl
  else
    d.founderCardEls.map founderFromCardEl

/-! ## Launch pages (utils.ts lines 262 to 361) -/

/-- `getBaseUrl`: protocol + host of an absolute http(s) URL (the
source builds it from `new URL(ycUrl)`; the model reads it off the
string, which coincides on the valid absolute URLs the crawler visits). -/
def getBaseUrl (ycUrl : String) : String :=
  match jsSplitOn ycUrl "://" with
  | proto :: rest :: _ => proto ++ "://" ++ ((jsSplitOn rest "/").headD "")
  | _ => ycUrl

/-- One child of the launch body: its contributed post fragment and the
media sources it pushes. Text wins when nonempty; otherwise the first
truthy img src, then the first truthy iframe src, is resolved against
the base URL and recorded; otherwise the fragment is empty. -/
def childFragment (baseUrl : String) (c : BodyChild) : String × List String :=
  let t := jsTrim c.text
  if t.length > 0 then (t, [])
  else
    match attrOrNull c.imgSrc with
    | some img =>
        let src := newURLHref img baseUrl
        (src, [src])
    | none =>
        match attrOrNull c.iframeSrc with
        | some f =>
            let src := newURLHref f baseUrl
            (src, [src])
        | none => ("", [])

/-- The result fields scrapeLaunchPage assembles. -/
structure LaunchPageData where
  votes : Int
  createdAt : JsValue
  post : String
  sources : List String
  deriving Repr, DecidableEq

/-- `scrapeLaunchPage` on an already fetched page: walk the body
children collecting fragments and sources, join the fragments with
spaces, parse the vote count (`votes ? votes : 0` collapses both the
null of NaN and a zero count to 0), read the datetime attribute as is,
and de-duplicate the sources through a Set. -/
def scrapeLaunchPage (url : String) (page : LaunchDoc) : LaunchPageData :=
  let baseUrl := getBaseUrl url
  let pairs := page.bodyChildren.map (childFragment baseUrl)
  let post := jsJoinSep " " (pairs.map Prod.fst)
  let sources := (pairs.map Prod.snd).flatten
  let votesParse := jsParseInt (jsTrim page.votesText)
  { votes := votesParse.getD 0
    createdAt := jsAttr page.timeagoDatetime
    post := post
    sources := jsSetDedup sources }

/-- The `getAllLaunchPosts` async callback for one launch teaser: a
teaser with empty title, empty description or missing link resolves to
null; otherwise the launch sub-page is fetched (modelled by `net`) and
scraped, and the teaser fields are merged with the scraped fields.
Because the callback is async it always returns a promise, so cheerio
map drops nothing: the nulls stay in the resulting array. -/
def launchPostFromEl (net : String → LaunchDoc) (baseUrl : String)
    (el : LaunchContainerEl) : Option LaunchPost :=
  let title := jsTrim el.titleText
  let link : Option String :=
    match attrOrNull el.readLaunchHref with
    | some r => some (newURLHref r baseUrl)
    | none => none
  let description := jsTrim el.descriptionText
  match link with
  | none => none
  | some l =>
      if title = "" ∨ description = "" then none
      else
        let scraped := scrapeLaunchPage l (net l)
        some { title := title
               link := l
               description := description
               votes := scraped.votes
               createdAt := scraped.createdAt
               post := scraped.post
               sources := scraped.sources }

/-- `getAllLaunchPosts`: one entry per matched teaser, null entries
included (the Promise.all array is returned as is). -/
def getAllLaunchPosts (net : String → LaunchDoc) (d : Doc)
    (baseUrl : String) : List (Option LaunchPost) :=
  d.launchEls.map (launchPostFromEl net baseUrl)

/-! ## CSV parsing (utils.ts lines 16 to 70) -/

/-- Capitalize a word the way lodash does: first character upper,
rest lower. -/
def capitalizeWord (w : String) : String :=
  match w.toList with
  | [] => ""
  | c :: cs => String.mk (c.toUpper :: cs.map Char.toLower)

/-- lodash `_.camelCase` restricted to space-separated words, which is
all the CSV headers exercise: first word lower-cased, later words
capitalized, no separators kept. -/
def jsCamelCase (s : String) : String :=
  match (jsSplitOn s " ").filter (fun w => w ≠ "") with
  | [] => ""
  | w :: ws => jsToLower w ++ jsJoinSep "" (ws.map capitalizeWord)

/-- Lookup in the object built by `Object.fromEntries`: with duplicate
keys the last entry wins; an absent key reads as undefined. -/
def jsLookup (m : List (String × String)) (k : String) : Option String :=
  (m.reverse.find? (fun p => p.1 = k)).map Prod.snd

/-- The `data` event handler body: camelCase every key, then read the
two columns with unchecked casts (absent columns stay undefined). -/
def companyOfRow (row : List (String × String)) : Company :=
  let m := row.map (fun p => (jsCamelCase p.1, p.2))
  { companyName := jsLookup m "companyName", ycUrl := jsLookup m "ycUrl" }

/-- An event of the fast-csv stream as the repository wires it: a
well-formed data row, or an error event carrying a message. -/
inductive CsvEvent where
  | row (fields : List (String × String))
  | err (msg : String)
  deriving Repr, DecidableEq

/-- `parseCompanyList` over the stream's event sequence (end of the
list is the end event). Every data row is pushed; the promise is
settled by whichever of `stream.on("end", resolve)` and
`stream.on("error", reject)` fires first, so the first error event
rejects the promise even though the error is also logged and rows
after it would still have been pushed. -/
def parseCompanyList (events : List CsvEvent) : Except String (List Company) :=
  go [] events
where
  /-- Process events in order, accumulating pushed companies. -/
  go (acc : List Company) : List CsvEvent → Except String (List Company)
    | [] => .ok acc.reverse
    | .row fields :: rest => go (companyOfRow fields :: acc) rest
    | .err msg :: _ => .error msg

/-! ## Record assembly and the crawler (utils.ts lines 533 to 597) -/

/-- The body of the CheerioCrawler requestHandler: run every extractor
against the fetched document (in source order; getBatch and getNews can
throw, in which case the request fails and nothing is pushed) and push
one Startup per handled request. -/
def requestHandler (net : String → LaunchDoc) (ycUrl : String)
    (d : Doc) : Except String Startup := do
  let ycBatch ← getBatch d
  let news ← getNews d
  pure
    { name := getName d
      ycUrl := ycUrl
      shortDescription := getShortDescription d
      description := getDescription d
      logo := getCompanyLogo d
      banner := getBannerUrl d
      founded := getFounded d
      teamSize := getTeamSize d
      location := getLocation d
      url := getCompanyUrl d
      ycBatch := ycBatch
      badges := getBadges d
      numJobs := getNumJobs d
      jobs := getJobs d
      founders := getFounders d
      launchPosts := getAllLaunchPosts net d (getBaseUrl ycUrl)
      socialMedia := getCompanySocials d
      news := news
      images := getImages d }

/-- `scrapeCompanyPages`, with the crawler abstracted: `pages` is the
fetch outcome per URL (none models a failed fetch) and `handled` is the
sequence of requests the crawler hands to the handler — the crawler
enqueues each distinct input URL once, so `handled` is a duplicate-free
selection of the input URLs. Each handled request whose fetch and
handler succeed appends exactly one record. -/
def scrapeCompanyPages (net : String → LaunchDoc)
    (pages : String → Option Doc) (handled : List String) : List Startup :=
  handled.filterMap (fun u =>
    (pages u).bind (fun d => (requestHandler net u d).toOption))

/-! ## Spec-side characterizations and concrete inputs -/

/-- The NewsItem rule in the words of the specification: title, link and
ISO date are all required, and the item is dropped when any is missing
(title empty, link absent or empty, date text empty or unparseable). -/
def newsSpecItem (el : NewsEl) : Option News :=
  match strOrNull (jsTrim el.titleText), attrOrNull el.linkAttr,
        (strOrNull (jsTrim el.nextText)).bind jsDateParse with
  | some t, some l, some d => some { title := t, link := l, date := d }
  | _, _, _ => none

/-- A company page on which every selection is empty. -/
def emptyDoc : Doc :=
  { nameText := "", foundedText := "", teamSizeText := "", locationText := ""
    numJobsText := "", descriptionText := "", shortDescriptionText := ""
    urlElems := [], socialEls := [], imageSrcs := [], logoSrc := none
    bannerSrc := none, badgeTexts := [], batchTexts := [], newsEls := []
    jobEls := [], founderInfoEls := [], founderCardEls := [], launchEls := [] }

/-- A network on which every launch sub-page is empty. -/
def trivialNet : String → LaunchDoc := fun _ => ⟨[], "", none⟩

/-- A page with one fully populated news element whose date text is not
parseable as a date. -/
def newsDocBadDate : Doc :=
  { emptyDoc with newsEls := [⟨"T", some "https://news.example/a", "not a date"⟩] }

/-- A page with one complete news element and three incomplete ones
(empty title, absent link, empty date text). -/
def newsDocMixed : Doc :=
  { emptyDoc with newsEls :=
      [⟨"Good", some "https://news.example/g", "2023-01-02"⟩,
       ⟨"", some "https://news.example/t", "2023-01-02"⟩,
       ⟨"NoLink", none, "2023-01-02"⟩,
       ⟨"NoDate", some "https://news.example/d", ""⟩] }

/-- A page with one launch teaser whose title is empty. -/
def launchDocNullEntry : Doc :=
  { emptyDoc with launchEls := [⟨"", some "/launches/1", "desc"⟩] }

/-- A page with one complete launch teaser. -/
def launchDocGood : Doc :=
  { emptyDoc with launchEls := [⟨"Launch!", some "/launches/2", "A description"⟩] }

/-- The launch post the complete teaser of launchDocGood produces over
the trivial network. -/
def launchPostGood : LaunchPost :=
  { title := "Launch!", link := "https://example.com/launches/2"
    description := "A description", votes := 0, createdAt := vUndef
    post := "", sources := [] }

/-- Team-size text in the exact shape the claim presents. -/
def teamDocLabel : Doc := { emptyDoc with teamSizeText := "Team Size: 42 people" }

/-- Team-size text with a non-digit character before the digits. -/
def teamDocTilde : Doc := { emptyDoc with teamSizeText := "~42" }

/-- Team-size text with the digits leading. -/
def teamDoc42People : Doc := { emptyDoc with teamSizeText := "42 people" }

/-- A jobs badge text with no digits at all. -/
def numJobsDocNoDigits : Doc := { emptyDoc with numJobsText := "no jobs!" }

/-- A jobs badge text with digits amid other characters. -/
def numJobsDocThree : Doc := { emptyDoc with numJobsText := " View 3 jobs " }

/-- A page with one social anchor that has an href but no title. -/
def socialsDocNoTitle : Doc :=
  { emptyDoc with socialEls := [⟨some "https://x.example/acme", none⟩] }

/-- A page with one social anchor that has neither href nor title. -/
def socialsDocBare : Doc :=
  { emptyDoc with socialEls := [⟨none, none⟩] }

/-- The record the request handler assembles for socialsDocBare. -/
def startupBare : Startup :=
  { name := none, ycUrl := "https://www.ycombinator.com/companies/x"
    shortDescription := none, description := none, logo := none
    banner := none, founded := none, teamSize := none, location := none
    url := none, ycBatch := none, badges := [], numJobs := vNaN, jobs := []
    founders := [], launchPosts := [], socialMedia := [("undefined", vUndef)]
    news := [], images := [] }

/-- The launch body of the specification example: a Hello child and an
image-only child. -/
def launchPageHello : LaunchDoc :=
  { bodyChildren := [⟨"Hello", none, none⟩, ⟨"", some "/img.png", none⟩]
    votesText := "", timeagoDatetime := none }

/-! ## Helper lemmas -/

/-- Whatever a cheerio map-with-drop traversal returns successfully is
the filterMap of the pointwise success values. -/
theorem cheerioMapDrop_ok_filterMap {α β : Type}
    (f : α → Except String (Option β)) (g : α → Option β)
    (hfg : ∀ a o, f a = .ok o → g a = o) :
    ∀ (els : List α) (l : List β),
      cheerioMapDrop f els = .ok l → l = els.filterMap g := by
  intro els
  induction els with
  | nil =>
      intro l h
      simp only [cheerioMapDrop] at h
      cases h
      simp
  | cons a as ih =>
      intro l h
      simp only [cheerioMapDrop] at h
      cases hfa : f a with
      | error e => rw [hfa] at h; cases h
      | ok o =>
          rw [hfa] at h
          cases o with
          | none =>
              simp only [List.filterMap_cons, hfg a none hfa]
              exact ih l h
          | some b =>
              cases hrec : cheerioMapDrop f as with
              | error e => rw [hrec] at h; cases h
              | ok bs =>
                  rw [hrec] at h
                  cases h
                  simp only [List.filterMap_cons, hfg a (some b) hfa]
                  rw [ih bs hrec]

/-- The getNews callback realizes the specification rule for one news
element: whenever it does not throw, its value is exactly the
spec-mandated optional item. -/
theorem newsFromEl_ok (el : NewsEl) (o : Option News)
    (h : newsFromEl el = .ok o) : newsSpecItem el = o := by
  unfold newsFromEl at h
  unfold newsSpecItem
  cases hds : strOrNull (jsTrim el.nextText) with
  | none =>
      simp only [hds] at h
      cases h
      simp only [Option.none_bind]
      cases strOrNull (jsTrim el.titleText) <;> cases attrOrNull el.linkAttr <;> rfl
  | some ds =>
      simp only [hds, Option.some_bind] at h ⊢
      cases hdp : jsDateParse ds with
      | none => simp only [hdp] at h; cases h
      | some iso =>
          simp only [hdp] at h ⊢
          cases ht : strOrNull (jsTrim el.titleText) <;>
            cases hl : attrOrNull el.linkAttr <;>
              simp only [ht, hl] at h ⊢ <;> cases h <;> rfl

/-- An entry of the object after one assignment is an old entry or the
assigned pair. -/
theorem mem_jsObjSet (m : List (String × JsValue)) (k : String)
    (v : JsValue) (kv : String × JsValue) (h : kv ∈ jsObjSet m k v) :
    kv ∈ m ∨ kv = (k, v) := by
  unfold jsObjSet at h
  split at h
  · rcases List.mem_map.mp h with ⟨p, hp, hpe⟩
    by_cases hk : p.1 = k
    · rw [if_pos hk] at hpe
      right; exact hpe.symm
    · rw [if_neg hk] at hpe
      left; rw [← hpe]; exact hp
  · rcases List.mem_append.mp h with h1 | h2
    · left; exact h1
    · right; simpa using h2

/-- Every entry accumulated by the social-link loop comes from one of
the processed anchors (or was already in the accumulator). -/
theorem socialStep_fold_mem (els : List SocialLinkEl) :
    ∀ (m : List (String × JsValue)) (kv : String × JsValue),
      kv ∈ els.foldl socialStep m →
      kv ∈ m ∨ ∃ el ∈ els, kv = (socialKey el, socialVal el) := by
  induction els with
  | nil => intro m kv h; left; simpa using h
  | cons a as ih =>
      intro m kv h
      rw [List.foldl_cons] at h
      rcases ih _ kv h with h1 | ⟨el, hel, he⟩
      · rcases mem_jsObjSet _ _ _ _ h1 with h2 | h2
        · left; exact h2
        · right; exact ⟨a, List.mem_cons_self a as, h2⟩
      · right; exact ⟨el, List.mem_cons_of_mem a hel, he⟩

/-- The assigned key is a key of the object after the assignment. -/
theorem jsObjSet_key_self (m : List (String × JsValue)) (k : String)
    (v : JsValue) : k ∈ (jsObjSet m k v).map Prod.fst := by
  unfold jsObjSet
  split
  · rename_i hc
    have hk : k ∈ m.map Prod.fst := by simpa using hc
    rcases List.mem_map.mp hk with ⟨p, hp, hpk⟩
    rw [List.map_map]
    exact List.mem_map.mpr ⟨p, hp, by simp [hpk]⟩
  · simp

/-- An assignment never removes a key. -/
theorem jsObjSet_key_mono (m : List (String × JsValue)) (k : String)
    (v : JsValue) (k' : String) (h : k' ∈ m.map Prod.fst) :
    k' ∈ (jsObjSet m k v).map Prod.fst := by
  unfold jsObjSet
  split
  · rcases List.mem_map.mp h with ⟨p, hp, hpk⟩
    rw [List.map_map]
    refine List.mem_map.mpr ⟨p, hp, ?_⟩
    by_cases hk : p.1 = k
    · simp only [Function.comp_apply, if_pos hk]
      exact hk.symm.trans hpk
    · simp only [Function.comp_apply, if_neg hk]
      exact hpk
  · rw [List.map_append]
    exact List.mem_append_left _ h

/-- The social-link loop never removes a key. -/
theorem socialStep_fold_key_mono (els : List SocialLinkEl) :
    ∀ (m : List (String × JsValue)) (k' : String),
      k' ∈ m.map Prod.fst → k' ∈ (els.foldl socialStep m).map Prod.fst := by
  induction els with
  | nil => intro m k' h; simpa using h
  | cons a as ih =>
      intro m k' h
      rw [List.foldl_cons]
      exact ih _ k' (jsObjSet_key_mono m _ _ k' h)

/-- The key of every processed anchor is a key of the final object. -/
theorem socialStep_fold_key_mem (els : List SocialLinkEl)
    (el : SocialLinkEl) (h : el ∈ els) :
    ∀ m : List (String × JsValue),
      socialKey el ∈ (els.foldl socialStep m).map Prod.fst := by
  induction els with
  | nil => cases h
  | cons a as ih =>
      intro m
      rw [List.foldl_cons]
      rcases List.mem_cons.mp h with rfl | hmem
      · exact socialStep_fold_key_mono as _ _ (jsObjSet_key_self m _ _)
      · exact ih hmem _

/-- The Set loop keeps a subsequence of its input. -/
theorem jsSetDedupAux_sublist {α : Type} [DecidableEq α] (l : List α) :
    ∀ seen : List α, (jsSetDedupAux seen l).Sublist l := by
  induction l with
  | nil => intro seen; simp [jsSetDedupAux]
  | cons a l ih =>
      intro seen
      simp only [jsSetDedupAux]
      by_cases h : a ∈ seen
      · rw [if_pos h]
        exact (ih seen).trans (List.sublist_cons_self a l)
      · rw [if_neg h]
        exact (ih (a :: seen)).cons₂ a

/-- Membership after the Set loop: kept iff present and not yet seen. -/
theorem mem_jsSetDedupAux {α : Type} [DecidableEq α] (x : α) (l : List α) :
    ∀ seen : List α, x ∈ jsSetDedupAux seen l ↔ (x ∈ l ∧ x ∉ seen) := by
  induction l with
  | nil => intro seen; simp [jsSetDedupAux]
  | cons a l ih =>
      intro seen
      simp only [jsSetDedupAux]
      by_cases h : a ∈ seen
      · rw [if_pos h, ih]
        constructor
        · rintro ⟨hx, hs⟩; exact ⟨List.mem_cons_of_mem a hx, hs⟩
        · rintro ⟨hx, hs⟩
          rcases List.mem_cons.mp hx with rfl | hx
          · exact absurd h hs
          · exact ⟨hx, hs⟩
      · rw [if_neg h]
        constructor
        · intro hx
          rcases List.mem_cons.mp hx with rfl | hx
          · exact ⟨List.mem_cons_self _ _, h⟩
          · rcases (ih (a :: seen)).mp hx with ⟨hl, hs⟩
            exact ⟨List.mem_cons_of_mem a hl,
              fun hxs => hs (List.mem_cons_of_mem a hxs)⟩
        · rintro ⟨hx, hs⟩
          rcases List.mem_cons.mp hx with rfl | hx
          · exact List.mem_cons_self _ _
          · by_cases hxa : x = a
            · subst hxa; exact List.mem_cons_self _ _
            · refine List.mem_cons_of_mem a ((ih (a :: seen)).mpr ⟨hx, ?_⟩)
              intro hxs
              rcases List.mem_cons.mp hxs with h1 | h1
              · exact hxa h1
              · exact hs h1

/-- The Set loop yields a duplicate-free list. -/
theorem jsSetDedupAux_nodup {α : Type} [DecidableEq α] (l : List α) :
    ∀ seen : List α, (jsSetDedupAux seen l).Nodup := by
  induction l with
  | nil => intro seen; simp [jsSetDedupAux]
  | cons a l ih =>
      intro seen
      simp only [jsSetDedupAux]
      by_cases h : a ∈ seen
      · rw [if_pos h]; exact ih seen
      · rw [if_neg h]
        refine List.nodup_cons.mpr ⟨?_, ih (a :: seen)⟩
        intro hmem
        rcases (mem_jsSetDedupAux a l (a :: seen)).mp hmem with ⟨_, hs⟩
        exact hs (List.mem_cons_self _ _)

/-- Set de-duplication keeps a subsequence of the input: insertion
order is preserved. -/
theorem jsSetDedup_sublist {α : Type} [DecidableEq α] (l : List α) :
    (jsSetDedup l).Sublist l :=
  jsSetDedupAux_sublist l []

/-- Set de-duplication keeps exactly the elements of the input. -/
theorem mem_jsSetDedup {α : Type} [DecidableEq α] (x : α) (l : List α) :
    x ∈ jsSetDedup l ↔ x ∈ l := by
  unfold jsSetDedup
  rw [mem_jsSetDedupAux]
  simp

/-- Set de-duplication yields a duplicate-free list. -/
theorem jsSetDedup_nodup {α : Type} [DecidableEq α] (l : List α) :
    (jsSetDedup l).Nodup :=
  jsSetDedupAux_nodup l []

/-- A body child pushes either no source or exactly its own fragment. -/
theorem childFragment_snd (base : String) (c : BodyChild) :
    (childFragment base c).2 = [] ∨
      (childFragment base c).2 = [(childFragment base c).1] := by
  unfold childFragment
  by_cases ht : (jsTrim c.text).length > 0
  · simp [ht]
  · simp only [if_neg ht]
    cases h1 : attrOrNull c.imgSrc with
    | some img => simp [h1]
    | none =>
        simp only [h1]
        cases h2 : attrOrNull c.iframeSrc with
        | some f => simp [h2]
        | none => simp [h2]

/-! ## Claim theorems -/

/-- C1: the spec promises that no extractor ever throws, and in
particular that getNews survives a nonempty but unparseable news date.
The code breaks that promise: on such a date string
`new Date(dateString).toISOString()` throws a RangeError before the
null guard can drop the item, even though the guard
`if (!title || !link || !date) return null` shows degradation to null
is the intent. Evaluated at the failing input. -/
theorem getNews_throws_on_unparseable_date :
    getNews newsDocBadDate = Except.error "RangeError: Invalid time value" :=
  rfl

/-- C6: on a launch body with a Hello child and an image-only child with
src /img.png against base https://example.com, the body is the
space-join of the text and the resolved URL and the referenced-media
list is exactly the resolved URL. -/
theorem scrapeLaunchPage_body_example :
    (scrapeLaunchPage "https://example.com/launches/1" launchPageHello).post =
        "Hello https://example.com/img.png" ∧
      (scrapeLaunchPage "https://example.com/launches/1" launchPageHello).sources =
        ["https://example.com/img.png"] :=
  ⟨rfl, rfl⟩

/-- C3 counterexample: a matched launch container whose title is empty
does NOT disappear from the collection; the async callback resolves to
null and Promise.all keeps that null as a placeholder entry. -/
theorem getAllLaunchPosts_null_placeholder :
    getAllLaunchPosts trivialNet launchDocNullEntry "https://example.com" =
      [none] :=
  rfl

/-- C4 counterexample: getTeamSize does not strip non-digit characters:
the claimed inputs "Team Size: 42 people" and "~42" both parse to NaN
and yield null, not 42; and getNumJobs returns NaN itself (outside the
declared number-or-null range) when the badge text has no digits. -/
theorem getTeamSize_no_strip_counterexample :
    getTeamSize teamDocLabel = none ∧ getTeamSize teamDocTilde = none ∧
      getNumJobs numJobsDocNoDigits = JsValue.vNaN :=
  ⟨rfl, rfl, rfl⟩

/-- C5 counterexample: the record assembled for a page with an empty
jobs badge carries numJobs = NaN, so not every optional field of the
pushed StructuredRecord is a string, a number or null. -/
theorem requestHandler_numJobs_nan :
    (requestHandler trivialNet "https://www.ycombinator.com/companies/x"
          emptyDoc).toOption.map Startup.numJobs = some JsValue.vNaN :=
  rfl

/-- C7 counterexample: a matched social link whose title attribute is
absent is not skipped: the assignment happens under the stringified
key "undefined", leaving an entry outside the fixed platform-name set. -/
theorem getCompanySocials_undefined_key :
    getCompanySocials socialsDocNoTitle =
      [("undefined", JsValue.vStr "https://x.example/acme")] :=
  rfl

/-- C8 counterexample: a malformed row raises a stream error event and
`stream.on("error", reject)` settles the promise with a rejection, so
the run does not continue to resolve with the remaining well-formed
rows. -/
theorem parseCompanyList_rejects_on_row_error :
    parseCompanyList
        [CsvEvent.row [("Company Name", "Acme"), ("YC URL", "https://a.example")],
         CsvEvent.err "Unexpected Error: column header mismatch",
         CsvEvent.row [("Company Name", "Beta"), ("YC URL", "https://b.example")]] =
      Except.error "Unexpected Error: column header mismatch" :=
  rfl

/-- C2: whenever getNews returns a list (it can instead throw, see C1),
that list is exactly the filterMap of the per-element specification
rule: an element with empty title, absent or empty link, or no
derivable date contributes nothing — no null or placeholder entry —
and every returned item carries all three fields. -/
theorem getNews_ok_drops_incomplete (d : Doc) (l : List News)
    (h : getNews d = Except.ok l) : l = d.newsEls.filterMap newsSpecItem :=
  cheerioMapDrop_ok_filterMap newsFromEl newsSpecItem newsFromEl_ok d.newsEls l h

/-- Witness for C2: on the mixed page the one complete news element
survives and the three incomplete ones are dropped. -/
theorem getNews_ok_drops_incomplete_witness :
    getNews newsDocMixed =
        Except.ok [{ title := "Good", link := "https://news.example/g",
                     date := "2023-01-02T00:00:00.000Z" }] ∧
      [({ title := "Good", link := "https://news.example/g",
          date := "2023-01-02T00:00:00.000Z" } : News)] =
        newsDocMixed.newsEls.filterMap newsSpecItem :=
  ⟨rfl, getNews_ok_drops_incomplete newsDocMixed _ rfl⟩

/-- C3 as amended: getAllLaunchPosts returns one entry per matched
launch container — a container missing its title, Read Launch link or
description yields a null entry rather than disappearing — and every
non-null entry carries a nonempty title and description (its link is
present by construction). -/
theorem getAllLaunchPosts_entries (net : String → LaunchDoc) (d : Doc)
    (baseUrl : String) :
    (getAllLaunchPosts net d baseUrl).length = d.launchEls.length ∧
      ∀ p ∈ getAllLaunchPosts net d baseUrl, ∀ lp : LaunchPost, p = some lp →
        lp.title ≠ "" ∧ lp.description ≠ "" := by
  constructor
  · simp [getAllLaunchPosts]
  · intro p hp lp hlp
    subst hlp
    rcases List.mem_map.mp hp with ⟨el, _, hel⟩
    unfold launchPostFromEl at hel
    cases h1 : attrOrNull el.readLaunchHref with
    | none => simp only [h1] at hel; cases hel
    | some r =>
        simp only [h1] at hel
        by_cases hc : jsTrim el.titleText = "" ∨ jsTrim el.descriptionText = ""
        · rw [if_pos hc] at hel; cases hel
        · rw [if_neg hc] at hel
          push_neg at hc
          cases hel
          exact ⟨hc.1, hc.2⟩

/-- Witness for C3: the complete teaser produces a full entry and the
collection length equals the container count. -/
theorem getAllLaunchPosts_entries_witness :
    (getAllLaunchPosts trivialNet launchDocGood "https://example.com").length =
        launchDocGood.launchEls.length ∧
      launchPostGood.title ≠ "" ∧ launchPostGood.description ≠ "" :=
  ⟨(getAllLaunchPosts_entries trivialNet launchDocGood "https://example.com").1,
   (getAllLaunchPosts_entries trivialNet launchDocGood "https://example.com").2
     (some launchPostGood) (by decide) launchPostGood rfl⟩

/-- C4 as amended: getTeamSize applies parseInt to the trimmed selected
text without stripping non-digits, so leading-digit texts parse
("42 people" gives 42) while "~42" and "Team Size: 42 people" give
null; getNumJobs strips non-digits before parsing but returns the NaN
of the parse failure itself when no digit remains, and a number when
digits occur within other characters. -/
theorem teamSize_numJobs_parse_behavior :
    (∀ d : Doc, d.teamSizeText = "42 people" → getTeamSize d = some 42) ∧
      (∀ d : Doc, d.teamSizeText = "~42" → getTeamSize d = none) ∧
      (∀ d : Doc, d.teamSizeText = "Team Size: 42 people" →
        getTeamSize d = none) ∧
      (∀ d : Doc, (∀ c ∈ (jsTrim d.numJobsText).toList, ¬ c.isDigit) →
        getNumJobs d = JsValue.vNaN) ∧
      (∀ d : Doc, d.numJobsText = " View 3 jobs " →
        getNumJobs d = JsValue.vNum 3) := by
  refine ⟨?_, ?_, ?_, ?_, ?_⟩
  · intro d h; unfold getTeamSize; rw [h]; rfl
  · intro d h; unfold getTeamSize; rw [h]; rfl
  · intro d h; unfold getTeamSize; rw [h]; rfl
  · intro d h
    have hf : (jsTrim d.numJobsText).toList.filter Char.isDigit = [] :=
      List.filter_eq_nil_iff.mpr h
    unfold getNumJobs stripNonDigits
    rw [hf]
    rfl
  · intro d h; unfold getNumJobs; rw [h]; rfl

/-- Witness for C4: the amended behavior evaluated on the concrete
badge and team-size texts. -/
theorem teamSize_numJobs_parse_behavior_witness :
    getTeamSize teamDoc42People = some 42 ∧
      getNumJobs numJobsDocNoDigits = JsValue.vNaN ∧
      getNumJobs numJobsDocThree = JsValue.vNum 3 :=
  ⟨teamSize_numJobs_parse_behavior.1 teamDoc42People rfl,
   teamSize_numJobs_parse_behavior.2.2.2.1 numJobsDocNoDigits (by decide),
   teamSize_numJobs_parse_behavior.2.2.2.2 numJobsDocThree rfl⟩

/-- C5 as amended: in every record the handler pushes, each optional
scalar field is a string, a number or null by construction, except for
the JavaScript escape hatches: numJobs is a number or NaN (never null,
undefined or a string), a founder imageUrl is a string or undefined, a
launch post createdAt is a string or undefined, and a social-link value
is a string or undefined. -/
theorem requestHandler_optional_field_shapes (net : String → LaunchDoc)
    (ycUrl : String) (d : Doc) (r : Startup)
    (h : requestHandler net ycUrl d = .ok r) :
    (r.numJobs = vNaN ∨ ∃ n, r.numJobs = vNum n) ∧
      (∀ f ∈ r.founders, f.imageUrl = vUndef ∨ ∃ s, f.imageUrl = vStr s) ∧
      (∀ p ∈ r.launchPosts, ∀ lp : LaunchPost, p = some lp →
        lp.createdAt = vUndef ∨ ∃ s, lp.createdAt = vStr s) ∧
      (∀ kv ∈ r.socialMedia, kv.2 = vUndef ∨ ∃ s, kv.2 = vStr s) := by
  unfold requestHandler at h
  simp only [bind, Except.bind, pure, Except.pure] at h
  cases hb : getBatch d with
  | error e => rw [hb] at h; cases h
  | ok b =>
      rw [hb] at h
      cases hn : getNews d with
      | error e => rw [hn] at h; cases h
      | ok nl =>
          rw [hn] at h
          cases h
          refine ⟨?_, ?_, ?_, ?_⟩
          · rcases hj : jsParseInt (stripNonDigits (jsTrim d.numJobsText))
              with _ | n
            · exact Or.inl (by unfold getNumJobs; rw [hj])
            · exact Or.inr ⟨n, by unfold getNumJobs; rw [hj]⟩
          · intro f hf
            unfold getFounders at hf
            split at hf
            · rcases List.mem_map.mp hf with ⟨el, _, rfl⟩
              rcases h2 : el.imgSrc with _ | s
              · exact Or.inl (by simp [founderFromInfoEl, jsAttr, h2])
              · exact Or.inr ⟨s, by simp [founderFromInfoEl, jsAttr, h2]⟩
            · rcases List.mem_map.mp hf with ⟨el, _, rfl⟩
              rcases h2 : el.imgSrc with _ | s
              · exact Or.inl (by simp [founderFromCardEl, jsAttr, h2])
              · exact Or.inr ⟨s, by simp [founderFromCardEl, jsAttr, h2]⟩
          · intro p hp lp hlp
            subst hlp
            unfold getAllLaunchPosts at hp
            rcases List.mem_map.mp hp with ⟨el, _, hel⟩
            unfold launchPostFromEl at hel
            cases h1 : attrOrNull el.readLaunchHref with
            | none => simp only [h1] at hel; cases hel
            | some rl =>
                simp only [h1] at hel
                by_cases hc : jsTrim el.titleText = "" ∨
                    jsTrim el.descriptionText = ""
                · rw [if_pos hc] at hel; cases hel
                · rw [if_neg hc] at hel
                  cases hel
                  rcases h3 : (net (newURLHref rl
                      (getBaseUrl ycUrl))).timeagoDatetime with _ | s
                  · exact Or.inl (by simp [scrapeLaunchPage, jsAttr, h3])
                  · exact Or.inr ⟨s, by simp [scrapeLaunchPage, jsAttr, h3]⟩
          · intro kv hkv
            unfold getCompanySocials at hkv
            rcases socialStep_fold_mem d.socialEls [] kv hkv
              with h1 | ⟨el, _, rfl⟩
            · cases h1
            · rcases h2 : el.href with _ | s
              · exact Or.inl (by simp [socialVal, h2])
              · exact Or.inr ⟨s, by simp [socialVal, h2]⟩

/-- Witness for C5: the amended shape invariant evaluated on the record
assembled for the bare-social-anchor page, whose numJobs is NaN and
whose one social value is undefined. -/
theorem requestHandler_optional_field_shapes_witness :
    (startupBare.numJobs = vNaN ∨ ∃ n, startupBare.numJobs = vNum n) ∧
      (∀ f ∈ startupBare.founders,
        f.imageUrl = vUndef ∨ ∃ s, f.imageUrl = vStr s) ∧
      (∀ p ∈ startupBare.launchPosts, ∀ lp : LaunchPost, p = some lp →
        lp.createdAt = vUndef ∨ ∃ s, lp.createdAt = vStr s) ∧
      (∀ kv ∈ startupBare.socialMedia,
        kv.2 = vUndef ∨ ∃ s, kv.2 = vStr s) :=
  requestHandler_optional_field_shapes trivialNet
    "https://www.ycombinator.com/companies/x" socialsDocBare startupBare rfl

/-- C7 as amended: getCompanySocials never throws on a link with an
absent title, but it does not skip it either: every entry of the
mapping is keyed and valued from some matched anchor, and every anchor
without a title contributes its assignment under the stringified key
"undefined", which therefore appears among the mapping keys. -/
theorem getCompanySocials_characterization (d : Doc) :
    (∀ kv ∈ getCompanySocials d, ∃ el ∈ d.socialEls,
        kv = (socialKey el, socialVal el)) ∧
      (∀ el ∈ d.socialEls, el.title = none →
        "undefined" ∈ (getCompanySocials d).map Prod.fst) := by
  constructor
  · intro kv hkv
    unfold getCompanySocials at hkv
    rcases socialStep_fold_mem d.socialEls [] kv hkv with h1 | h2
    · cases h1
    · exact h2
  · intro el hel htitle
    have hk : socialKey el = "undefined" := by unfold socialKey; rw [htitle]
    unfold getCompanySocials
    rw [← hk]
    exact socialStep_fold_key_mem d.socialEls el hel []

/-- Witness for C7: on the page with one untitled social anchor, the
single entry comes from that anchor and the key "undefined" is among
the mapping keys. -/
theorem getCompanySocials_characterization_witness :
    (∃ el ∈ socialsDocNoTitle.socialEls,
        (("undefined", JsValue.vStr "https://x.example/acme") :
            String × JsValue) = (socialKey el, socialVal el)) ∧
      "undefined" ∈ (getCompanySocials socialsDocNoTitle).map Prod.fst :=
  ⟨(getCompanySocials_characterization socialsDocNoTitle).1
     ("undefined", JsValue.vStr "https://x.example/acme") (by decide),
   (getCompanySocials_characterization socialsDocNoTitle).2
     ⟨some "https://x.example/acme", none⟩ (by decide) rfl⟩

/-- C8 as amended: parseCompanyList resolves with exactly the companies
of the data rows only when no error event occurs; the first error event
— a malformed row just as much as a file-not-found — is logged but also
rejects the returned promise, regardless of any well-formed rows before
or after it. -/
theorem parseCompanyList_resolve_reject :
    (∀ rows : List (List (String × String)),
        parseCompanyList (rows.map CsvEvent.row) =
          Except.ok (rows.map companyOfRow)) ∧
      (∀ (rows : List (List (String × String))) (msg : String)
          (rest : List CsvEvent),
        parseCompanyList (rows.map CsvEvent.row ++ CsvEvent.err msg :: rest) =
          Except.error msg) := by
  have hgo : ∀ (rows : List (List (String × String))) (acc : List Company),
      parseCompanyList.go acc (rows.map CsvEvent.row) =
        .ok (acc.reverse ++ rows.map companyOfRow) := by
    intro rows
    induction rows with
    | nil => intro acc; simp [parseCompanyList.go]
    | cons r rs ih =>
        intro acc
        simp only [List.map_cons, parseCompanyList.go]
        rw [ih]
        simp
  have hgoerr : ∀ (rows : List (List (String × String))) (acc : List Company)
      (msg : String) (rest : List CsvEvent),
      parseCompanyList.go acc
          (rows.map CsvEvent.row ++ CsvEvent.err msg :: rest) =
        .error msg := by
    intro rows
    induction rows with
    | nil => intro acc msg rest; simp [parseCompanyList.go]
    | cons r rs ih =>
        intro acc msg rest
        simp only [List.map_cons, List.cons_append, parseCompanyList.go]
        exact ih _ msg rest
  constructor
  · intro rows
    unfold parseCompanyList
    rw [hgo]
    simp
  · intro rows msg rest
    unfold parseCompanyList
    exact hgoerr rows [] msg rest

/-- C9: each handled request appends at most one record — the crawler
hands the handler a duplicate-free selection of the input URLs, a
failed fetch or a throwing handler appends none — so the output
collection is never longer than the input collection. -/
theorem scrapeCompanyPages_length_le (net : String → LaunchDoc)
    (pages : String → Option Doc) (companies : List Company)
    (handled : List String) (hnd : handled.Nodup)
    (hsub : ∀ u ∈ handled, u ∈ companies.filterMap Company.ycUrl) :
    (scrapeCompanyPages net pages handled).length ≤ companies.length := by
  have h1 : (scrapeCompanyPages net pages handled).length ≤ handled.length :=
    List.length_filterMap_le _ _
  have h2 : handled.length ≤ (companies.filterMap Company.ycUrl).length :=
    (hnd.subperm (fun u hu => hsub u hu)).length_le
  have h3 : (companies.filterMap Company.ycUrl).length ≤ companies.length :=
    List.length_filterMap_le _ _
  omega

/-- Witness for C9: one input company, its URL handled once. -/
theorem scrapeCompanyPages_length_le_witness :
    (["https://a.example"] : List String).Nodup ∧
      (∀ u ∈ (["https://a.example"] : List String),
        u ∈ ([⟨some "Acme", some "https://a.example"⟩] :
          List Company).filterMap Company.ycUrl) ∧
      (scrapeCompanyPages trivialNet (fun _ => some emptyDoc)
          ["https://a.example"]).length ≤
        ([⟨some "Acme", some "https://a.example"⟩] : List Company).length :=
  ⟨by decide, by decide,
   scrapeCompanyPages_length_le trivialNet (fun _ => some emptyDoc)
     [⟨some "Acme", some "https://a.example"⟩] ["https://a.example"]
     (by decide) (by decide)⟩

/-- C10: the referenced-media list of a scraped launch page is the
Set de-duplication of the walk-order source sequence: a subsequence of
it (insertion order preserved), duplicate-free, with exactly its
elements; the body is the space-join of the walk fragments; and every
listed media URL also occurs as one of those fragments. -/
theorem scrapeLaunchPage_sources_spec (url : String) (page : LaunchDoc) :
    (scrapeLaunchPage url page).sources =
        jsSetDedup (((page.bodyChildren.map
          (childFragment (getBaseUrl url))).map Prod.snd).flatten) ∧
      List.Sublist (scrapeLaunchPage url page).sources
        (((page.bodyChildren.map
          (childFragment (getBaseUrl url))).map Prod.snd).flatten) ∧
      (scrapeLaunchPage url page).sources.Nodup ∧
      (∀ u, u ∈ (scrapeLaunchPage url page).sources ↔
        u ∈ ((page.bodyChildren.map
          (childFragment (getBaseUrl url))).map Prod.snd).flatten) ∧
      (scrapeLaunchPage url page).post =
        jsJoinSep " " ((page.bodyChildren.map
          (childFragment (getBaseUrl url))).map Prod.fst) ∧
      (∀ u ∈ (scrapeLaunchPage url page).sources,
        u ∈ (page.bodyChildren.map
          (childFragment (getBaseUrl url))).map Prod.fst) := by
  have hs : (scrapeLaunchPage url page).sources =
      jsSetDedup (((page.bodyChildren.map
        (childFragment (getBaseUrl url))).map Prod.snd).flatten) := rfl
  refine ⟨hs, ?_, ?_, ?_, rfl, ?_⟩
  · rw [hs]; exact jsSetDedup_sublist _
  · rw [hs]; exact jsSetDedup_nodup _
  · intro u; rw [hs]; exact mem_jsSetDedup u _
  · intro u hu
    rw [hs] at hu
    have hu2 := (mem_jsSetDedup u _).mp hu
    rcases List.mem_flatten.mp hu2 with ⟨s, hs1, hu3⟩
    rcases List.mem_map.mp hs1 with ⟨pair, hpair, rfl⟩
    rcases List.mem_map.mp hpair with ⟨c, hc, rfl⟩
    rcases childFragment_snd (getBaseUrl url) c with h0 | h0
    · rw [h0] at hu3; cases hu3
    · rw [h0] at hu3
      rcases List.mem_singleton.mp hu3 with rfl
      exact List.mem_map.mpr ⟨childFragment (getBaseUrl url) c,
        List.mem_map.mpr ⟨c, hc, rfl⟩, rfl⟩

/-- Witness for C10: evaluated on the specification example page. -/
theorem scrapeLaunchPage_sources_spec_witness :
    (scrapeLaunchPage "https://example.com/launches/1"
        launchPageHello).sources.Nodup ∧
      "https://example.com/img.png" ∈
        (launchPageHello.bodyChildren.map
          (childFragment (getBaseUrl "https://example.com/launches/1"))).map
            Prod.fst :=
  ⟨(scrapeLaunchPage_sources_spec "https://example.com/launches/1"
      launchPageHello).2.2.1,
   (scrapeLaunchPage_sources_spec "https://example.com/launches/1"
      launchPageHello).2.2.2.2.2 "https://example.com/img.png" (by decide)⟩
